import Mathlib

/-!
Verification of the client review-portal workflow core.

The definitions below are a shallow embedding of the repository's
TypeScript services: the article status constants (`constants/status.ts`),
the status → (task type, task status) mapping of `articleToClientTask`
(campaign service), the edit-suggestion model with `detectEditConflict`
and `mergeEdits` (draft service), the review-draft store with `saveDraft` /
`loadDraft`, and the review submission functions `submitTitleReview`,
`submitOutlineReview`, `submitContentReview` (article service).

External-store calls are modelled by explicit state passing: the
`articles` table and the `review_drafts` table are lists of rows, and the
possible failure of each Supabase call is an explicit boolean of a
`StoreBehavior` record.  JavaScript objects become structures whose
optional fields are `Option`s (an absent key is `none`); `JSON.stringify`
snapshots of original content are modelled as the serialized strings
themselves; `new Date().toISOString()` timestamps are a `Nat` parameter
threaded in by the caller.
-/

/-- The closed article-status enumeration of `src/constants/status.ts`
(`ARTICLE_STATUS`): three phase tracks, `PUBLISHED`, and the deprecated
`NEEDS_REVISION`. -/
inductive ArticleStatus where
  | NEEDS_TITLES
  | AWAITING_REVIEW_TITLES
  | TITLES_APPROVED
  | NEEDS_TITLES_REVISION
  | NEEDS_OUTLINE
  | AWAITING_REVIEW_OUTLINE
  | OUTLINE_APPROVED
  | NEEDS_OUTLINE_REVISION
  | NEEDS_DRAFT
  | AWAITING_REVIEW_DRAFT
  | DRAFT_APPROVED
  | NEEDS_DRAFT_REVISION
  | PUBLISHED
  | NEEDS_REVISION
  deriving DecidableEq, Repr

/-- Task type rendered by the client portal (`TaskType` in the types
module, as used by `articleToClientTask`). -/
inductive TaskType where
  | TITLE_REVIEW
  | OUTLINE_REVIEW
  | CONTENT_REVIEW
  deriving DecidableEq, Repr

/-- Approval state rendered by the client portal (`TaskStatus` values used
by `articleToClientTask`). -/
inductive TaskStatus where
  | PENDING
  | APPROVED
  | CHANGES_REQUESTED
  deriving DecidableEq, Repr

/-- The status switch at the head of `articleToClientTask` (campaign
service, `src/unnamed/part_002` lines 1245-1305): `taskStatus` starts as
`PENDING` and the switch assigns `taskType` and possibly overrides
`taskStatus`; the `default` arm yields `TITLE_REVIEW`/`PENDING`. -/
def articleToClientTaskPhase : ArticleStatus → TaskType × TaskStatus
  | .AWAITING_REVIEW_TITLES => (.TITLE_REVIEW, .PENDING)
  | .AWAITING_REVIEW_OUTLINE => (.OUTLINE_REVIEW, .PENDING)
  | .AWAITING_REVIEW_DRAFT => (.CONTENT_REVIEW, .PENDING)
  | .TITLES_APPROVED => (.TITLE_REVIEW, .APPROVED)
  | .NEEDS_OUTLINE => (.TITLE_REVIEW, .APPROVED)
  | .OUTLINE_APPROVED => (.OUTLINE_REVIEW, .APPROVED)
  | .NEEDS_DRAFT => (.OUTLINE_REVIEW, .APPROVED)
  | .DRAFT_APPROVED => (.CONTENT_REVIEW, .APPROVED)
  | .PUBLISHED => (.CONTENT_REVIEW, .APPROVED)
  | .NEEDS_TITLES_REVISION => (.TITLE_REVIEW, .CHANGES_REQUESTED)
  | .NEEDS_OUTLINE_REVISION => (.OUTLINE_REVIEW, .CHANGES_REQUESTED)
  | .NEEDS_DRAFT_REVISION => (.CONTENT_REVIEW, .CHANGES_REQUESTED)
  | .NEEDS_REVISION => (.CONTENT_REVIEW, .CHANGES_REQUESTED)
  | _ => (.TITLE_REVIEW, .PENDING)

/-- Edit action kind (`actionType` of an edit suggestion). -/
inductive ActionType where
  | add
  | modify
  | delete
  deriving DecidableEq, Repr

/-- An edit suggestion as handled by the draft service
(`EditSuggestion` in the types module).  `originalContent` and
`suggestedContent` are the `JSON.stringify` serializations of the
snapshot objects (`none` for an absent snapshot), so string equality of
the model fields is exactly the `JSON.stringify` comparison performed by
`detectEditConflict`. -/
structure EditSuggestion where
  id : String
  targetId : String
  actionType : ActionType
  originalContent : Option String
  suggestedContent : Option String
  author : String
  authorEmail : String
  timestamp : Nat
  status : String
  deriving DecidableEq, Repr

/-- `detectEditConflict(edit1, edit2)` from the draft service
(`src/unnamed/part_002` lines 1017-1037): different targets never
conflict; two `modify`s conflict iff their stringified original snapshots
differ; `delete` vs `modify` (either order) always conflicts; everything
else does not conflict. -/
def detectEditConflict (edit1 edit2 : EditSuggestion) : Bool :=
  if edit1.targetId ≠ edit2.targetId then
    false
  else if edit1.actionType = ActionType.modify ∧ edit2.actionType = ActionType.modify then
    decide (edit1.originalContent ≠ edit2.originalContent)
  else if edit1.actionType = ActionType.delete ∧ edit2.actionType = ActionType.modify then
    true
  else if edit1.actionType = ActionType.modify ∧ edit2.actionType = ActionType.delete then
    true
  else
    false

/-- Propositional characterization of `detectEditConflict`: it returns
`true` exactly on same-target `modify`/`modify` pairs with differing
original snapshots and on same-target `delete`/`modify` pairs (either
order). -/
theorem detectEditConflict_eq_true_iff (a b : EditSuggestion) :
    detectEditConflict a b = true ↔
      a.targetId = b.targetId ∧
        ((a.actionType = ActionType.modify ∧ b.actionType = ActionType.modify
            ∧ a.originalContent ≠ b.originalContent)
          ∨ (a.actionType = ActionType.delete ∧ b.actionType = ActionType.modify)
          ∨ (a.actionType = ActionType.modify ∧ b.actionType = ActionType.delete)) := by
  unfold detectEditConflict
  split_ifs with h1 h2 h3 h4 <;>
    simp_all [not_not]

/-- C6: `detectEditConflict` is symmetric; distinct targets never
conflict; two `modify`s on the same target conflict iff their recorded
original snapshots differ; `delete` paired with `modify` on the same
target conflicts in either order. -/
theorem detectEditConflict_spec (a b : EditSuggestion) :
    detectEditConflict a b = detectEditConflict b a
    ∧ (a.targetId ≠ b.targetId → detectEditConflict a b = false)
    ∧ (a.targetId = b.targetId → a.actionType = ActionType.modify →
        b.actionType = ActionType.modify →
        (detectEditConflict a b = true ↔ a.originalContent ≠ b.originalContent))
    ∧ (a.targetId = b.targetId → a.actionType = ActionType.delete →
        b.actionType = ActionType.modify → detectEditConflict a b = true)
    ∧ (a.targetId = b.targetId → a.actionType = ActionType.modify →
        b.actionType = ActionType.delete → detectEditConflict a b = true) := by
  refine ⟨?_, ?_, ?_, ?_, ?_⟩
  · rw [Bool.eq_iff_iff, detectEditConflict_eq_true_iff, detectEditConflict_eq_true_iff]
    constructor
    · rintro ⟨ht, h | h | h⟩
      · exact ⟨ht.symm, Or.inl ⟨h.2.1, h.1, fun e => h.2.2 e.symm⟩⟩
      · exact ⟨ht.symm, Or.inr (Or.inr ⟨h.2, h.1⟩)⟩
      · exact ⟨ht.symm, Or.inr (Or.inl ⟨h.2, h.1⟩)⟩
    · rintro ⟨ht, h | h | h⟩
      · exact ⟨ht.symm, Or.inl ⟨h.2.1, h.1, fun e => h.2.2 e.symm⟩⟩
      · exact ⟨ht.symm, Or.inr (Or.inr ⟨h.2, h.1⟩)⟩
      · exact ⟨ht.symm, Or.inr (Or.inl ⟨h.2, h.1⟩)⟩
  · intro ht
    rw [← Bool.not_eq_true, detectEditConflict_eq_true_iff]
    rintro ⟨he, -⟩
    exact ht he
  · intro ht ha hb
    rw [detectEditConflict_eq_true_iff]
    constructor
    · rintro ⟨-, h | h | h⟩
      · exact h.2.2
      · rw [ha] at h; cases h.1
      · rw [hb] at h; cases h.2
    · intro ho
      exact ⟨ht, Or.inl ⟨ha, hb, ho⟩⟩
  · intro ht ha hb
    rw [detectEditConflict_eq_true_iff]
    exact ⟨ht, Or.inr (Or.inl ⟨ha, hb⟩)⟩
  · intro ht ha hb
    rw [detectEditConflict_eq_true_iff]
    exact ⟨ht, Or.inr (Or.inr ⟨ha, hb⟩)⟩

/-- Witness for C6 at concrete edits: a `delete`/`modify` pair on the same
target conflicts. -/
theorem detectEditConflict_spec_witness :
    detectEditConflict
      { id := "e1", targetId := "t", actionType := ActionType.delete,
        originalContent := some "x", suggestedContent := none,
        author := "A", authorEmail := "a@x", timestamp := 0, status := "pending" }
      { id := "e2", targetId := "t", actionType := ActionType.modify,
        originalContent := some "x", suggestedContent := some "y",
        author := "B", authorEmail := "b@x", timestamp := 0, status := "pending" }
      = true :=
  (detectEditConflict_spec _ _).2.2.2.1 rfl rfl rfl

/-- C10: two `delete`s never conflict, any pair involving an `add` never
conflicts (even on the same target), and a conflict can only arise from a
`modify`/`modify` or a `delete`/`modify` pair. -/
theorem detectEditConflict_only_modify_delete (a b : EditSuggestion) :
    (a.actionType = ActionType.delete → b.actionType = ActionType.delete →
      detectEditConflict a b = false)
    ∧ (a.actionType = ActionType.add → detectEditConflict a b = false)
    ∧ (b.actionType = ActionType.add → detectEditConflict a b = false)
    ∧ (detectEditConflict a b = true →
        (a.actionType = ActionType.modify ∧ b.actionType = ActionType.modify)
        ∨ (a.actionType = ActionType.delete ∧ b.actionType = ActionType.modify)
        ∨ (a.actionType = ActionType.modify ∧ b.actionType = ActionType.delete)) := by
  refine ⟨?_, ?_, ?_, ?_⟩
  · intro ha hb
    rw [← Bool.not_eq_true, detectEditConflict_eq_true_iff]
    rintro ⟨-, h | h | h⟩ <;> rw [ha, hb] at h
    · cases h.1
    · cases h.2
    · cases h.1
  · intro ha
    rw [← Bool.not_eq_true, detectEditConflict_eq_true_iff]
    rintro ⟨-, h | h | h⟩ <;> rw [ha] at h <;> cases h.1
  · intro hb
    rw [← Bool.not_eq_true, detectEditConflict_eq_true_iff]
    rintro ⟨-, h | h | h⟩ <;> rw [hb] at h
    · cases h.2.1
    · cases h.2
    · cases h.2
  · intro hc
    rcases (detectEditConflict_eq_true_iff a b).mp hc with ⟨-, h | h | h⟩
    · exact Or.inl ⟨h.1, h.2.1⟩
    · exact Or.inr (Or.inl h)
    · exact Or.inr (Or.inr h)

/-- Witness for C10 at concrete edits: two `add`s on the same target do
not conflict. -/
theorem detectEditConflict_only_modify_delete_witness :
    detectEditConflict
      { id := "e1", targetId := "t", actionType := ActionType.add,
        originalContent := none, suggestedContent := some "x",
        author := "A", authorEmail := "a@x", timestamp := 0, status := "pending" }
      { id := "e2", targetId := "t", actionType := ActionType.add,
        originalContent := none, suggestedContent := some "y",
        author := "B", authorEmail := "b@x", timestamp := 0, status := "pending" }
      = false :=
  (detectEditConflict_only_modify_delete _ _).2.1 rfl

/-- C8: the phase/approval-state mapping is total over the status
enumeration — every status maps to exactly one pair — and the deprecated
`NEEDS_REVISION` maps to the content phase with the changes-requested
state. -/
theorem articleToClientTaskPhase_total :
    (∀ s : ArticleStatus, ∃! p : TaskType × TaskStatus, articleToClientTaskPhase s = p)
    ∧ articleToClientTaskPhase ArticleStatus.NEEDS_REVISION
        = (TaskType.CONTENT_REVIEW, TaskStatus.CHANGES_REQUESTED) := by
  refine ⟨fun s => ⟨articleToClientTaskPhase s, rfl, fun p hp => hp.symm⟩, rfl⟩

/-- One iteration of the `for (const remoteEdit of remoteEdits)` loop body
of `mergeEdits` (`src/unnamed/part_002` lines 1042-1064): the accumulator
carries the `merged` list (initialized to a copy of `localEdits`) and the
`conflicts` list; a remote edit conflicting with some local edit (checked
against the original `localEdits` with `Array.find`) is recorded as a
conflict pair, otherwise it is appended unless an edit with the same id is
already in `merged`. -/
def mergeStep (localEdits : List EditSuggestion)
    (acc : List EditSuggestion × List (EditSuggestion × EditSuggestion))
    (remoteEdit : EditSuggestion) :
    List EditSuggestion × List (EditSuggestion × EditSuggestion) :=
  match localEdits.find? (fun l => detectEditConflict l remoteEdit) with
  | some conflictingLocal => (acc.1, acc.2 ++ [(conflictingLocal, remoteEdit)])
  | none =>
      if acc.1.any (fun e => e.id == remoteEdit.id) then acc
      else (acc.1 ++ [remoteEdit], acc.2)

/-- `mergeEdits(localEdits, remoteEdits)` from the draft service
(`src/unnamed/part_002` lines 1042-1064), returning the pair
`(merged, conflicts)`. -/
def mergeEdits (localEdits remoteEdits : List EditSuggestion) :
    List EditSuggestion × List (EditSuggestion × EditSuggestion) :=
  remoteEdits.foldl (mergeStep localEdits) (localEdits, [])

/-- The loop body either leaves `merged` unchanged or appends the remote
edit, and it appends only when no local edit conflicts with it. -/
theorem mergeStep_fst (L : List EditSuggestion)
    (acc : List EditSuggestion × List (EditSuggestion × EditSuggestion))
    (r : EditSuggestion) :
    (mergeStep L acc r).1 = acc.1
    ∨ ((mergeStep L acc r).1 = acc.1 ++ [r]
        ∧ L.find? (fun l => detectEditConflict l r) = none) := by
  unfold mergeStep
  rcases h : L.find? (fun l => detectEditConflict l r) with _ | cl
  · by_cases hany : acc.1.any (fun e => e.id == r.id) <;> simp [hany, h]
  · simp

/-- The loop body either leaves `conflicts` unchanged or appends the pair
`(conflictingLocal, remoteEdit)` found by `Array.find`. -/
theorem mergeStep_snd (L : List EditSuggestion)
    (acc : List EditSuggestion × List (EditSuggestion × EditSuggestion))
    (r : EditSuggestion) :
    (mergeStep L acc r).2 = acc.2
    ∨ ∃ cl, (mergeStep L acc r).2 = acc.2 ++ [(cl, r)]
        ∧ L.find? (fun l => detectEditConflict l r) = some cl := by
  unfold mergeStep
  rcases h : L.find? (fun l => detectEditConflict l r) with _ | cl
  · by_cases hany : acc.1.any (fun e => e.id == r.id) <;> simp [hany]
  · exact Or.inr ⟨cl, by simp, rfl⟩

/-- Folding the loop over the remote list only appends to `merged`, and
every appended element has no conflicting local edit. -/
theorem foldl_mergeStep_fst (L : List EditSuggestion) :
    ∀ (R : List EditSuggestion)
      (acc : List EditSuggestion × List (EditSuggestion × EditSuggestion)),
      ∃ t, (R.foldl (mergeStep L) acc).1 = acc.1 ++ t
        ∧ ∀ e ∈ t, L.find? (fun l => detectEditConflict l e) = none := by
  intro R
  induction R with
  | nil => exact fun acc => ⟨[], by simp, by simp⟩
  | cons r rs ih =>
    intro acc
    obtain ⟨t, ht, htc⟩ := ih (mergeStep L acc r)
    rw [List.foldl_cons] at *
    rcases mergeStep_fst L acc r with h | ⟨h, hfind⟩
    · exact ⟨t, by rw [ht, h], htc⟩
    · refine ⟨r :: t, by rw [ht, h]; simp, ?_⟩
      intro e he
      rcases List.mem_cons.mp he with rfl | he'
      · exact hfind
      · exact htc e he'

/-- Every conflict pair produced by folding the loop either was already in
the accumulator or records a remote edit of the list together with the
first conflicting local edit found for it. -/
theorem foldl_mergeStep_snd (L : List EditSuggestion) :
    ∀ (R : List EditSuggestion)
      (acc : List EditSuggestion × List (EditSuggestion × EditSuggestion))
      (p : EditSuggestion × EditSuggestion),
      p ∈ (R.foldl (mergeStep L) acc).2 →
        p ∈ acc.2
        ∨ (p.2 ∈ R ∧ L.find? (fun l => detectEditConflict l p.2) = some p.1) := by
  intro R
  induction R with
  | nil => exact fun acc p hp => Or.inl hp
  | cons r rs ih =>
    intro acc p hp
    rw [List.foldl_cons] at hp
    rcases ih (mergeStep L acc r) p hp with h | ⟨hmem, hfind⟩
    · rcases mergeStep_snd L acc r with hs | ⟨cl, hs, hfind⟩
      · rw [hs] at h
        exact Or.inl h
      · rw [hs] at h
        rcases List.mem_append.mp h with h' | h'
        · exact Or.inl h'
        · rcases List.mem_singleton.mp h' with rfl
          exact Or.inr ⟨List.mem_cons_self r rs, hfind⟩
    · exact Or.inr ⟨List.mem_cons_of_mem r hmem, hfind⟩

/-- For a remote edit with no conflicting local edit, the final `merged`
list contains an edit with its id (the edit itself, or the already-present
edit with the same id that suppressed the append). -/
theorem foldl_mergeStep_id (L : List EditSuggestion) :
    ∀ (R : List EditSuggestion)
      (acc : List EditSuggestion × List (EditSuggestion × EditSuggestion))
      (r : EditSuggestion), r ∈ R →
      L.find? (fun l => detectEditConflict l r) = none →
      ∃ e ∈ (R.foldl (mergeStep L) acc).1, e.id = r.id := by
  intro R
  induction R with
  | nil => intro acc r hr; cases hr
  | cons x rs ih =>
    intro acc r hr hfind
    rw [List.foldl_cons]
    rcases List.mem_cons.mp hr with rfl | hr'
    · obtain ⟨t, ht, -⟩ := foldl_mergeStep_fst L rs (mergeStep L acc r)
      by_cases hany : acc.1.any (fun e => e.id == r.id)
      · obtain ⟨e, he, hid⟩ := List.any_eq_true.mp hany
        have hstep : (mergeStep L acc r).1 = acc.1 := by
          unfold mergeStep
          rw [hfind]
          simp [hany]
        refine ⟨e, ?_, eq_of_beq hid⟩
        rw [ht, hstep]
        exact List.mem_append_left t he
      · have hstep : (mergeStep L acc r).1 = acc.1 ++ [r] := by
          unfold mergeStep
          rw [hfind]
          simp [hany]
        refine ⟨r, ?_, rfl⟩
        rw [ht, hstep]
        simp
    · exact ih (mergeStep L acc x) r hr' hfind

/-- Folding the loop never removes a recorded conflict pair. -/
theorem foldl_mergeStep_snd_mono (L : List EditSuggestion) :
    ∀ (R : List EditSuggestion)
      (acc : List EditSuggestion × List (EditSuggestion × EditSuggestion))
      (p : EditSuggestion × EditSuggestion),
      p ∈ acc.2 → p ∈ (R.foldl (mergeStep L) acc).2 := by
  intro R
  induction R with
  | nil => exact fun acc p hp => hp
  | cons r rs ih =>
    intro acc p hp
    rw [List.foldl_cons]
    apply ih
    rcases mergeStep_snd L acc r with hs | ⟨cl, hs, -⟩
    · rw [hs]
      exact hp
    · rw [hs]
      exact List.mem_append_left _ hp

/-- Completeness of the conflict recording: every remote edit for which
`Array.find` locates a conflicting local edit gets its pair pushed onto
`conflicts` during its own loop iteration. -/
theorem foldl_mergeStep_snd_complete (L : List EditSuggestion) :
    ∀ (R : List EditSuggestion)
      (acc : List EditSuggestion × List (EditSuggestion × EditSuggestion))
      (r cl : EditSuggestion), r ∈ R →
      L.find? (fun l => detectEditConflict l r) = some cl →
      (cl, r) ∈ (R.foldl (mergeStep L) acc).2 := by
  intro R
  induction R with
  | nil => intro acc r cl hr; cases hr
  | cons x rs ih =>
    intro acc r cl hr hfind
    rw [List.foldl_cons]
    rcases List.mem_cons.mp hr with rfl | hr'
    · apply foldl_mergeStep_snd_mono
      have hstep : (mergeStep L acc r).2 = acc.2 ++ [(cl, r)] := by
        unfold mergeStep
        rw [hfind]
      rw [hstep]
      exact List.mem_append_right _ (List.mem_singleton.mpr rfl)
    · exact ih (mergeStep L acc x) r cl hr' hfind

/-- C7 (amended): every local edit appears unchanged in `merged`; every
conflict pair consists of a local edit and a remote edit that conflict;
every remote edit that conflicts with some local edit is recorded in
`conflicts` (paired with the first conflicting local edit found); a
remote edit recorded in `conflicts` is never appended, so it occurs in
`merged` only if it is itself one of the local edits; and every
non-conflicting remote edit is represented in `merged` by an edit with its
id (itself, unless an edit with the same id was already present). -/
theorem mergeEdits_spec (L R : List EditSuggestion) :
    (∀ l ∈ L, l ∈ (mergeEdits L R).1)
    ∧ (∀ p ∈ (mergeEdits L R).2,
        p.1 ∈ L ∧ p.2 ∈ R ∧ detectEditConflict p.1 p.2 = true)
    ∧ (∀ r ∈ R, (∃ l ∈ L, detectEditConflict l r = true) →
        ∃ cl, L.find? (fun l => detectEditConflict l r) = some cl
          ∧ (cl, r) ∈ (mergeEdits L R).2)
    ∧ (∀ p ∈ (mergeEdits L R).2, p.2 ∈ (mergeEdits L R).1 → p.2 ∈ L)
    ∧ (∀ r ∈ R, L.find? (fun l => detectEditConflict l r) = none →
        ∃ e ∈ (mergeEdits L R).1, e.id = r.id) := by
  obtain ⟨t, ht, htc⟩ := foldl_mergeStep_fst L R (L, [])
  refine ⟨?_, ?_, ?_, ?_, ?_⟩
  · intro l hl
    show l ∈ (R.foldl (mergeStep L) (L, [])).1
    rw [ht]
    exact List.mem_append_left t hl
  · intro p hp
    rcases foldl_mergeStep_snd L R (L, []) p hp with h | ⟨hmem, hfind⟩
    · cases h
    · refine ⟨List.mem_of_find?_eq_some hfind, hmem, ?_⟩
      have h1 := List.find?_some hfind
      simpa using h1
  · rintro r hr ⟨l, hl, hconf⟩
    rcases hcl : L.find? (fun l => detectEditConflict l r) with _ | cl
    · have hnone := List.find?_eq_none.mp hcl l hl
      exact absurd hconf (by simpa using hnone)
    · exact ⟨cl, rfl, foldl_mergeStep_snd_complete L R (L, []) r cl hr hcl⟩
  · intro p hp hmem
    rcases foldl_mergeStep_snd L R (L, []) p hp with h | ⟨-, hfind⟩
    · cases h
    · rw [show (mergeEdits L R).1 = L ++ t from ht] at hmem
      rcases List.mem_append.mp hmem with h' | h'
      · exact h'
      · rw [htc p.2 h'] at hfind
        cases hfind
  · intro r hr hfind
    exact foldl_mergeStep_id L R (L, []) r hr hfind

/-- C7 counterexample: with local edits `[delete t, modify t]` and the
remote list containing that same `modify t` edit, the remote edit is
recorded in `conflicts` (it conflicts with the local delete) and yet
appears in `merged`, because it is also one of the local edits — so "no
remote edit recorded in conflicts appears in merged" fails as stated. -/
theorem mergeEdits_conflict_in_merged_counterexample :
    ((mergeEdits
        [{ id := "d", targetId := "t", actionType := ActionType.delete,
           originalContent := some "o", suggestedContent := none,
           author := "A", authorEmail := "a@x", timestamp := 0, status := "pending" },
         { id := "m", targetId := "t", actionType := ActionType.modify,
           originalContent := some "o", suggestedContent := some "s",
           author := "A", authorEmail := "a@x", timestamp := 0, status := "pending" }]
        [{ id := "m", targetId := "t", actionType := ActionType.modify,
           originalContent := some "o", suggestedContent := some "s",
           author := "A", authorEmail := "a@x", timestamp := 0, status := "pending" }]).2
      = [({ id := "d", targetId := "t", actionType := ActionType.delete,
            originalContent := some "o", suggestedContent := none,
            author := "A", authorEmail := "a@x", timestamp := 0, status := "pending" },
          { id := "m", targetId := "t", actionType := ActionType.modify,
            originalContent := some "o", suggestedContent := some "s",
            author := "A", authorEmail := "a@x", timestamp := 0, status := "pending" })])
    ∧ ({ id := "m", targetId := "t", actionType := ActionType.modify,
         originalContent := some "o", suggestedContent := some "s",
         author := "A", authorEmail := "a@x", timestamp := 0, status := "pending" }
        ∈ (mergeEdits
            [{ id := "d", targetId := "t", actionType := ActionType.delete,
               originalContent := some "o", suggestedContent := none,
               author := "A", authorEmail := "a@x", timestamp := 0, status := "pending" },
             { id := "m", targetId := "t", actionType := ActionType.modify,
               originalContent := some "o", suggestedContent := some "s",
               author := "A", authorEmail := "a@x", timestamp := 0, status := "pending" }]
            [{ id := "m", targetId := "t", actionType := ActionType.modify,
               originalContent := some "o", suggestedContent := some "s",
               author := "A", authorEmail := "a@x", timestamp := 0, status := "pending" }]).1) := by
  constructor
  · rfl
  · decide

/-- Witness for C7 (amended) at concrete lists: a local edit is retained
in `merged`. -/
theorem mergeEdits_spec_witness :
    { id := "l", targetId := "t1", actionType := ActionType.modify,
      originalContent := some "o", suggestedContent := some "s",
      author := "A", authorEmail := "a@x", timestamp := 0, status := "pending" }
    ∈ (mergeEdits
        [{ id := "l", targetId := "t1", actionType := ActionType.modify,
           originalContent := some "o", suggestedContent := some "s",
           author := "A", authorEmail := "a@x", timestamp := 0, status := "pending" }]
        [{ id := "r", targetId := "t2", actionType := ActionType.add,
           originalContent := none, suggestedContent := some "n",
           author := "B", authorEmail := "b@x", timestamp := 1, status := "pending" }]).1 :=
  (mergeEdits_spec _ _).1 _ (List.mem_singleton.mpr rfl)

/-- Review type discriminator of a draft row (`review_type` column,
`'title' | 'outline' | 'content'`). -/
inductive ReviewType where
  | title
  | outline
  | content
  deriving DecidableEq, Repr

/-- A per-target comment held in a draft (`Comment` in the types
module). -/
structure Comment where
  id : String
  targetId : String
  author : String
  text : String
  timestamp : Nat
  deriving DecidableEq, Repr

/-- A row of the `review_drafts` table as written by `saveDraft`
(`src/unnamed/part_002` lines 672-708).  `draft_selections` models the
`Record<string, any>` as an association list; the DB-generated surrogate
`id` column plays no role in the draft operations and is omitted. -/
structure DraftRow where
  article_id : String
  contact_email : String
  review_type : ReviewType
  draft_edits : List EditSuggestion
  draft_comments : List Comment
  draft_selections : List (String × String)
  updated_at : Nat
  deriving DecidableEq, Repr

/-- The upsert conflict key of `review_drafts`
(`onConflict: 'article_id,contact_email,review_type'`). -/
def draftKeyMatch (articleId contactEmail : String) (reviewType : ReviewType)
    (r : DraftRow) : Bool :=
  r.article_id == articleId && r.contact_email == contactEmail
    && r.review_type == reviewType

/-- The row object passed to `.upsert(...)` by `saveDraft`. -/
def mkDraftRow (articleId contactEmail : String) (reviewType : ReviewType)
    (edits : List EditSuggestion) (comments : List Comment)
    (selections : List (String × String)) (now : Nat) : DraftRow :=
  { article_id := articleId, contact_email := contactEmail,
    review_type := reviewType, draft_edits := edits,
    draft_comments := comments, draft_selections := selections,
    updated_at := now }

/-- `saveDraft(articleId, contactEmail, reviewType, edits, comments,
selections)` (`src/unnamed/part_002` lines 672-708): an upsert on the
conflict key — if a row with the key exists it is overwritten with the new
fields (including a fresh `updated_at`), otherwise a new row is inserted.
The `now` parameter is the `new Date().toISOString()` timestamp. -/
def saveDraft (rows : List DraftRow) (articleId contactEmail : String)
    (reviewType : ReviewType) (edits : List EditSuggestion)
    (comments : List Comment) (selections : List (String × String))
    (now : Nat) : List DraftRow :=
  if rows.any (draftKeyMatch articleId contactEmail reviewType) then
    rows.map (fun r =>
      if draftKeyMatch articleId contactEmail reviewType r then
        mkDraftRow articleId contactEmail reviewType edits comments selections now
      else r)
  else
    rows ++ [mkDraftRow articleId contactEmail reviewType edits comments selections now]

/-- The draft returned to the caller by `loadDraft` (the `ReviewDraft`
interface, after converting column names). -/
structure ReviewDraft where
  articleId : String
  contactEmail : String
  reviewType : ReviewType
  draftEdits : List EditSuggestion
  draftComments : List Comment
  draftSelections : List (String × String)
  updatedAt : Nat
  deriving DecidableEq, Repr

/-- `loadDraft(articleId, contactEmail, reviewType)`
(`src/unnamed/part_002` lines 713-762): a `.single()` select on the key —
exactly one matching row yields the converted draft, zero rows is the
"no draft" result and any other error also returns `null`. -/
def loadDraft (rows : List DraftRow) (articleId contactEmail : String)
    (reviewType : ReviewType) : Option ReviewDraft :=
  match rows.filter (draftKeyMatch articleId contactEmail reviewType) with
  | [data] =>
      some { articleId := data.article_id, contactEmail := data.contact_email,
             reviewType := data.review_type, draftEdits := data.draft_edits,
             draftComments := data.draft_comments,
             draftSelections := data.draft_selections,
             updatedAt := data.updated_at }
  | _ => none

/-- The freshly built upsert row matches its own conflict key. -/
theorem draftKeyMatch_mkDraftRow (articleId contactEmail : String)
    (reviewType : ReviewType) (edits : List EditSuggestion)
    (comments : List Comment) (selections : List (String × String)) (now : Nat) :
    draftKeyMatch articleId contactEmail reviewType
      (mkDraftRow articleId contactEmail reviewType edits comments selections now)
      = true := by
  simp [draftKeyMatch, mkDraftRow]

/-- Overwriting keyed rows twice is the same as overwriting them once with
the second row. -/
theorem upsert_map_comp {k : DraftRow → Bool} {row1 row2 : DraftRow}
    (hk1 : k row1 = true) (rows : List DraftRow) :
    (rows.map (fun r => if k r then row1 else r)).map
        (fun r => if k r then row2 else r)
      = rows.map (fun r => if k r then row2 else r) := by
  rw [List.map_map]
  apply List.map_congr_left
  intro a _
  by_cases ha : k a = true
  · simp [Function.comp, ha, hk1]
  · simp [Function.comp, ha]

/-- Overwriting keyed rows is the identity on a list with no keyed row. -/
theorem upsert_map_id {k : DraftRow → Bool} {row : DraftRow}
    (rows : List DraftRow) (h : ∀ r ∈ rows, k r = false) :
    rows.map (fun r => if k r then row else r) = rows := by
  induction rows with
  | nil => rfl
  | cons x xs ih =>
    have hx := h x (List.mem_cons_self x xs)
    simp only [List.map_cons, hx, ite_false, Bool.false_eq_true, if_neg]
    rw [ih (fun r hr => h r (List.mem_cons_of_mem x hr))]

/-- Two consecutive `saveDraft` calls with the same key and content leave
the store as a single `saveDraft` call at the later timestamp would
(last write wins; no duplicate row accumulates). -/
theorem saveDraft_saveDraft (rows : List DraftRow)
    (articleId contactEmail : String) (reviewType : ReviewType)
    (edits : List EditSuggestion) (comments : List Comment)
    (selections : List (String × String)) (t1 t2 : Nat) :
    saveDraft (saveDraft rows articleId contactEmail reviewType edits comments selections t1)
        articleId contactEmail reviewType edits comments selections t2
      = saveDraft rows articleId contactEmail reviewType edits comments selections t2 := by
  unfold saveDraft
  set k := draftKeyMatch articleId contactEmail reviewType with hkdef
  have hk1 : k (mkDraftRow articleId contactEmail reviewType edits comments selections t1)
      = true := draftKeyMatch_mkDraftRow _ _ _ _ _ _ _
  by_cases h : rows.any k = true
  · rw [if_pos h]
    have hany : (rows.map (fun r =>
        if k r then mkDraftRow articleId contactEmail reviewType edits comments selections t1
        else r)).any k = true := by
      rcases List.any_eq_true.mp h with ⟨x, hx, hkx⟩
      refine List.any_eq_true.mpr ⟨_, List.mem_map_of_mem _ hx, ?_⟩
      simp [hkx, hk1]
    rw [if_pos hany, if_pos h]
    exact upsert_map_comp hk1 rows
  · rw [if_neg h]
    have hall : ∀ r ∈ rows, k r = false := by
      intro r hr
      by_contra hc
      exact h (List.any_eq_true.mpr ⟨r, hr, by simpa using hc⟩)
    have hany : (rows ++ [mkDraftRow articleId contactEmail reviewType edits comments selections t1]).any k
        = true :=
      List.any_eq_true.mpr ⟨_, List.mem_append_right rows (List.mem_singleton.mpr rfl), hk1⟩
    rw [if_pos hany, if_neg h, List.map_append,
      upsert_map_id rows hall]
    simp [hk1]

/-- After overwriting every keyed row in a list that contains at most one
keyed row (the DB unique constraint) and at least one, the keyed rows are
exactly the new row. -/
theorem filter_map_upsert {k : DraftRow → Bool} {row : DraftRow}
    (hk : k row = true) :
    ∀ rows : List DraftRow, rows.countP k ≤ 1 → rows.any k = true →
      (rows.map (fun r => if k r then row else r)).filter k = [row] := by
  intro rows
  induction rows with
  | nil => intro _ h; cases h
  | cons x xs ih =>
    intro hcount hany
    by_cases hx : k x = true
    · have hxs : xs.countP k = 0 := by
        rw [List.countP_cons_of_pos k xs hx] at hcount
        omega
      have hnone : ∀ r ∈ xs, k r = false := by
        intro r hr
        by_contra hc
        have : 0 < xs.countP k :=
          List.countP_pos_iff.mpr ⟨r, hr, by simpa using hc⟩
        omega
      rw [List.map_cons, if_pos hx, List.filter_cons_of_pos hk,
        upsert_map_id xs hnone, List.filter_eq_nil_iff.mpr
          (fun a ha => by simp [hnone a ha])]
    · have hany' : xs.any k = true := by
        rcases List.any_eq_true.mp hany with ⟨y, hy, hky⟩
        rcases List.mem_cons.mp hy with rfl | hy'
        · exact absurd hky hx
        · exact List.any_eq_true.mpr ⟨y, hy', hky⟩
      have hcount' : xs.countP k ≤ 1 := by
        rw [List.countP_cons_of_neg k xs (by simpa using hx)] at hcount
        exact hcount
      rw [List.map_cons, if_neg hx, List.filter_cons_of_neg (by simpa using hx)]
      exact ih hcount' hany'

/-- After a `saveDraft`, the rows matching the conflict key are exactly
the freshly written row, provided the store respected the unique
constraint beforehand. -/
theorem saveDraft_filter_key (rows : List DraftRow)
    (articleId contactEmail : String) (reviewType : ReviewType)
    (edits : List EditSuggestion) (comments : List Comment)
    (selections : List (String × String)) (now : Nat)
    (hcount : rows.countP (draftKeyMatch articleId contactEmail reviewType) ≤ 1) :
    (saveDraft rows articleId contactEmail reviewType edits comments selections now).filter
        (draftKeyMatch articleId contactEmail reviewType)
      = [mkDraftRow articleId contactEmail reviewType edits comments selections now] := by
  unfold saveDraft
  set k := draftKeyMatch articleId contactEmail reviewType with hkdef
  have hk : k (mkDraftRow articleId contactEmail reviewType edits comments selections now)
      = true := draftKeyMatch_mkDraftRow _ _ _ _ _ _ _
  by_cases h : rows.any k = true
  · rw [if_pos h]
    exact filter_map_upsert hk rows hcount h
  · have hall : ∀ r ∈ rows, k r = false := by
      intro r hr
      by_contra hc
      exact h (List.any_eq_true.mpr ⟨r, hr, by simpa using hc⟩)
    rw [if_neg h, List.filter_append,
      List.filter_eq_nil_iff.mpr (fun a ha => by simp [hall a ha]),
      List.filter_cons_of_pos hk]
    rfl

/-- Loading right after a save returns exactly the saved content. -/
theorem loadDraft_saveDraft (rows : List DraftRow)
    (articleId contactEmail : String) (reviewType : ReviewType)
    (edits : List EditSuggestion) (comments : List Comment)
    (selections : List (String × String)) (now : Nat)
    (hcount : rows.countP (draftKeyMatch articleId contactEmail reviewType) ≤ 1) :
    loadDraft (saveDraft rows articleId contactEmail reviewType edits comments selections now)
        articleId contactEmail reviewType
      = some { articleId := articleId, contactEmail := contactEmail,
               reviewType := reviewType, draftEdits := edits,
               draftComments := comments, draftSelections := selections,
               updatedAt := now } := by
  unfold loadDraft
  rw [saveDraft_filter_key rows articleId contactEmail reviewType edits comments
    selections now hcount]
  rfl

/-- C9: on a store respecting the unique key constraint, calling
`saveDraft` twice in a row with identical content for the same
(articleId, contactEmail, reviewType) key leaves the store exactly as a
single call would, the store holds exactly one row for that key, and a
subsequent `loadDraft` for the key returns the saved content. -/
theorem saveDraft_idempotent (rows : List DraftRow)
    (articleId contactEmail : String) (reviewType : ReviewType)
    (edits : List EditSuggestion) (comments : List Comment)
    (selections : List (String × String)) (t : Nat)
    (hcount : rows.countP (draftKeyMatch articleId contactEmail reviewType) ≤ 1) :
    saveDraft (saveDraft rows articleId contactEmail reviewType edits comments selections t)
        articleId contactEmail reviewType edits comments selections t
      = saveDraft rows articleId contactEmail reviewType edits comments selections t
    ∧ ((saveDraft rows articleId contactEmail reviewType edits comments selections t).filter
        (draftKeyMatch articleId contactEmail reviewType)).length = 1
    ∧ loadDraft (saveDraft rows articleId contactEmail reviewType edits comments selections t)
        articleId contactEmail reviewType
      = some { articleId := articleId, contactEmail := contactEmail,
               reviewType := reviewType, draftEdits := edits,
               draftComments := comments, draftSelections := selections,
               updatedAt := t } := by
  refine ⟨saveDraft_saveDraft rows articleId contactEmail reviewType edits comments
    selections t t, ?_,
    loadDraft_saveDraft rows articleId contactEmail reviewType edits comments
      selections t hcount⟩
  rw [saveDraft_filter_key rows articleId contactEmail reviewType edits comments
    selections t hcount]
  rfl

/-- Witness for C9 at a concrete store and key. -/
theorem saveDraft_idempotent_witness :
    loadDraft (saveDraft [] "a1" "c@x" ReviewType.outline [] [] [] 5)
        "a1" "c@x" ReviewType.outline
      = some { articleId := "a1", contactEmail := "c@x",
               reviewType := ReviewType.outline, draftEdits := [],
               draftComments := [], draftSelections := [], updatedAt := 5 } :=
  (saveDraft_idempotent [] "a1" "c@x" ReviewType.outline [] [] [] 5
    (by decide)).2.2

/-- A per-target comment as passed to the submit functions
(`Array<{ targetId: string; text: string }>`). -/
structure TargetComment where
  targetId : String
  text : String
  deriving DecidableEq, Repr

/-- An approved-title object built by `submitTitleReview`
(`{ id, text, notes }`, with `notes` null when the client note was
empty). -/
structure ApprovedTitle where
  id : String
  text : String
  notes : Option String
  deriving DecidableEq, Repr

/-- The `client_comments` JSON payload written to an article by the
submit functions.  Each submit function builds an object literal with a
subset of these keys; a key absent from the literal is the default
(`none` / `[]`).  In particular none of the submit functions in
`src/unnamed/part_002` sets `edits` or a round number. -/
structure ClientComments where
  action : String
  reviewer : String
  timestamp : Nat
  rejectReason : Option String := none
  generalComments : Option String := none
  titleNotes : List (String × String) := []
  approvedTitles : List ApprovedTitle := []
  selectedTitleIds : List String := []
  sectionComments : List TargetComment := []
  contentComments : List TargetComment := []
  edits : Option (List EditSuggestion) := none
  deriving DecidableEq, Repr

/-- A title option as passed from the title-review UI
(`TitleOption`): `clientNotes` is the note text, empty string when the
client wrote none (JavaScript truthiness of `t.clientNotes`). -/
structure TitleOption where
  id : String
  text : String
  isSelected : Bool
  clientNotes : String
  deriving DecidableEq, Repr

/-- A row of the `articles` table (the columns touched by the submit
functions).  `revision_history` and `revision_round` are the columns
added by `database_migration_revision_history.sql`, with DB defaults
`[]` and `1`. -/
structure Article where
  id : String
  campaign_id : String
  title : String
  status : ArticleStatus
  proposed_titles : List String
  selected_title : Option String
  client_comments : Option ClientComments
  revision_history : List ClientComments
  revision_round : Nat
  deriving DecidableEq, Repr

/-- Which Supabase calls fail during a submission; each flag stands for
the `error` result of the corresponding call. -/
structure StoreBehavior where
  updateFails : Bool
  fetchFails : Bool
  insertFails : Bool
  deleteFails : Bool
  deriving DecidableEq, Repr

/-- The behavior in which every store call succeeds. -/
def okStore : StoreBehavior :=
  { updateFails := false, fetchFails := false,
    insertFails := false, deleteFails := false }

/-- The `{ success: boolean; error?: string }` result of the submit
functions. -/
structure SubmitResult where
  success : Bool
  error : Option String
  deriving DecidableEq, Repr

/-- The `titleNotes` record built by `submitTitleReview` from all passed
titles whose `clientNotes` is truthy (non-empty). -/
def titleNotesOf (selectedTitles : List TitleOption) : List (String × String) :=
  (selectedTitles.filter (fun t => t.clientNotes != "")).map
    (fun t => (t.id, t.clientNotes))

/-- The `approvedTitles` array built by `submitTitleReview`: the selected
titles with their (possibly null) notes. -/
def approvedTitlesOf (selectedTitles : List TitleOption) : List ApprovedTitle :=
  (selectedTitles.filter (fun t => t.isSelected)).map
    (fun t => { id := t.id, text := t.text,
                notes := if t.clientNotes = "" then none else some t.clientNotes })

/-- The new article row created by the title-approval fan-out for one
approved title (`newArticles` literal in `submitTitleReview`,
`src/unnamed/part_002` lines 279-294).  The row id is DB-generated on
insert, modelled by `freshId`; `revision_history`/`revision_round` take
their column defaults. -/
def newArticleForTitle (originalArticle : Article) (generalComments : Option String)
    (now : Nat) (freshId : String → String) (t : ApprovedTitle) : Article :=
  { id := freshId t.id,
    campaign_id := originalArticle.campaign_id,
    title := t.text,
    selected_title := some t.text,
    status := ArticleStatus.NEEDS_OUTLINE,
    proposed_titles := originalArticle.proposed_titles,
    client_comments := some
      { action := "approved", reviewer := "client", timestamp := now,
        approvedTitles := [t], selectedTitleIds := [t.id],
        titleNotes := match t.notes with
          | some n => [(t.id, n)]
          | none => [],
        generalComments := generalComments },
    revision_history := [],
    revision_round := 1 }

/-- `submitTitleReview(articleId, selectedTitles, rejected, rejectReason,
generalComments)` (`src/unnamed/part_002` lines 190-328).  Rejection
updates the original article in place; approval fetches the original,
inserts one new article per approved title, then deletes the original,
treating a delete failure as non-fatal.  A Supabase `.insert([])` of an
empty array succeeds, so an approval with no selected titles is modelled
as a successful insert of nothing. -/
def submitTitleReview (beh : StoreBehavior) (freshId : String → String)
    (articles : List Article) (articleId : String)
    (selectedTitles : List TitleOption) (rejected : Bool)
    (rejectReason : Option String) (generalComments : Option String)
    (now : Nat) : SubmitResult × List Article :=
  if rejected then
    let clientComments : ClientComments :=
      { action := "rejected", rejectReason := rejectReason,
        generalComments := generalComments,
        titleNotes := titleNotesOf selectedTitles,
        timestamp := now, reviewer := "client" }
    if beh.updateFails then
      ({ success := false, error := some "update failed" }, articles)
    else
      ({ success := true, error := none },
        articles.map (fun a =>
          if a.id == articleId then
            { a with client_comments := some clientComments,
                     status := ArticleStatus.NEEDS_TITLES_REVISION }
          else a))
  else
    if beh.fetchFails then
      ({ success := false, error := some "Failed to fetch original article" },
        articles)
    else
      match articles.find? (fun a => a.id == articleId) with
      | none =>
          ({ success := false, error := some "Failed to fetch original article" },
            articles)
      | some originalArticle =>
          let newArticles := (approvedTitlesOf selectedTitles).map
            (newArticleForTitle originalArticle generalComments now freshId)
          if beh.insertFails then
            ({ success := false, error := some "insert failed" }, articles)
          else
            if beh.deleteFails then
              ({ success := true, error := none }, articles ++ newArticles)
            else
              ({ success := true, error := none },
                (articles ++ newArticles).filter (fun a => a.id != articleId))

/-- `submitOutlineReview(articleId, approved, comments, generalComments)`
(`src/unnamed/part_002` lines 337-384): build the new `client_comments`
payload and update the article's `client_comments` and `status` — nothing
else.  The function takes no edit-store input and never reads or writes
`revision_history` or `revision_round`. -/
def submitOutlineReview (beh : StoreBehavior) (articles : List Article)
    (articleId : String) (approved : Bool) (comments : List TargetComment)
    (generalComments : Option String) (now : Nat) :
    SubmitResult × List Article :=
  let clientComments : ClientComments :=
    { action := if approved then "approved" else "revision_requested",
      reviewer := "client", timestamp := now,
      sectionComments := comments, generalComments := generalComments }
  let newStatus := if approved then ArticleStatus.OUTLINE_APPROVED
    else ArticleStatus.NEEDS_OUTLINE_REVISION
  if beh.updateFails then
    ({ success := false, error := some "update failed" }, articles)
  else
    ({ success := true, error := none },
      articles.map (fun a =>
        if a.id == articleId then
          { a with client_comments := some clientComments, status := newStatus }
        else a))

/-- `submitContentReview(articleId, approved, comments, generalComments)`
(`src/unnamed/part_002` lines 393-440): same shape as the outline
version, with `contentComments` and the draft statuses. -/
def submitContentReview (beh : StoreBehavior) (articles : List Article)
    (articleId : String) (approved : Bool) (comments : List TargetComment)
    (generalComments : Option String) (now : Nat) :
    SubmitResult × List Article :=
  let clientComments : ClientComments :=
    { action := if approved then "approved" else "revision_requested",
      reviewer := "client", timestamp := now,
      contentComments := comments, generalComments := generalComments }
  let newStatus := if approved then ArticleStatus.DRAFT_APPROVED
    else ArticleStatus.NEEDS_DRAFT_REVISION
  if beh.updateFails then
    ({ success := false, error := some "update failed" }, articles)
  else
    ({ success := true, error := none },
      articles.map (fun a =>
        if a.id == articleId then
          { a with client_comments := some clientComments, status := newStatus }
        else a))

/-- C1 (failing input, outline and content review): submitting a review
on an article that already holds a feedback payload in `client_comments`
(round 1) succeeds but leaves `revision_history` empty and
`revision_round` at 1 — the previous payload is overwritten, not
archived, and the round is not advanced to 2 as the spec (and
`REVISION_HISTORY_FIX.md`) require. -/
theorem submitReview_no_revision_archival :
    let fb1 : ClientComments :=
      { action := "revision_requested", reviewer := "client", timestamp := 1,
        sectionComments := [{ targetId := "s1", text := "too vague" }],
        generalComments := some "needs more data" }
    let artO : Article :=
      { id := "o", campaign_id := "c", title := "T",
        status := ArticleStatus.AWAITING_REVIEW_OUTLINE,
        proposed_titles := [], selected_title := none,
        client_comments := some fb1, revision_history := [],
        revision_round := 1 }
    let artC : Article :=
      { artO with status := ArticleStatus.AWAITING_REVIEW_DRAFT }
    let resO := submitOutlineReview okStore [artO] "o" false
      [{ targetId := "s2", text := "round two" }] none 9
    let resC := submitContentReview okStore [artC] "o" false
      [{ targetId := "b2", text := "round two" }] none 9
    resO.1.success = true
    ∧ resO.2.map (fun a => a.revision_history) = [[]]
    ∧ resO.2.map (fun a => a.revision_round) = [1]
    ∧ resO.2.map (fun a => a.client_comments) ≠ [some fb1]
    ∧ resC.1.success = true
    ∧ resC.2.map (fun a => a.revision_history) = [[]]
    ∧ resC.2.map (fun a => a.revision_round) = [1] := by
  decide

/-- C2 (failing input): the feedback payload written by a successful
outline or content review submission carries no edit suggestions at all —
its `edits` key is absent (`none`), and the submit functions take no
input from the `client_edits` store, so pending edit suggestions are
never included. -/
theorem submitReview_payload_omits_edits :
    let art : Article :=
      { id := "o", campaign_id := "c", title := "T",
        status := ArticleStatus.AWAITING_REVIEW_OUTLINE,
        proposed_titles := [], selected_title := none,
        client_comments := none, revision_history := [],
        revision_round := 1 }
    let resO := submitOutlineReview okStore [art] "o" false
      [{ targetId := "s1", text := "c" }] (some "g") 9
    let resC := submitContentReview okStore
      [{ art with status := ArticleStatus.AWAITING_REVIEW_DRAFT }] "o" false
      [{ targetId := "b1", text := "c" }] (some "g") 9
    resO.1.success = true
    ∧ resO.2.map (fun a => a.client_comments.map (fun cc => cc.edits))
        = [some none]
    ∧ resC.1.success = true
    ∧ resC.2.map (fun a => a.client_comments.map (fun cc => cc.edits))
        = [some none] := by
  decide

/-- C3: when every store call succeeds, approving a non-empty set of
titles creates exactly one new article per approved title — status
`NEEDS_OUTLINE`, `selected_title` the approved text, `proposed_titles`
the original full proposal list, feedback recording only that title —
and the original article is deleted. -/
theorem submitTitleReview_fanout
    (articles : List Article) (articleId : String)
    (selectedTitles : List TitleOption)
    (rejectReason generalComments : Option String) (now : Nat)
    (freshId : String → String) (orig : Article)
    (hfind : articles.find? (fun a => a.id == articleId) = some orig)
    (hne : approvedTitlesOf selectedTitles ≠ [])
    (hfresh : ∀ t ∈ approvedTitlesOf selectedTitles, freshId t.id ≠ articleId) :
    (submitTitleReview okStore freshId articles articleId selectedTitles
        false rejectReason generalComments now).1.success = true
    ∧ (submitTitleReview okStore freshId articles articleId selectedTitles
        false rejectReason generalComments now).2
      = articles.filter (fun a => a.id != articleId)
        ++ (approvedTitlesOf selectedTitles).map
            (newArticleForTitle orig generalComments now freshId)
    ∧ ((approvedTitlesOf selectedTitles).map
        (newArticleForTitle orig generalComments now freshId)).length
      = (selectedTitles.filter (fun t => t.isSelected)).length
    ∧ (∀ t ∈ approvedTitlesOf selectedTitles,
        (newArticleForTitle orig generalComments now freshId t).status
          = ArticleStatus.NEEDS_OUTLINE
        ∧ (newArticleForTitle orig generalComments now freshId t).selected_title
          = some t.text
        ∧ (newArticleForTitle orig generalComments now freshId t).proposed_titles
          = orig.proposed_titles
        ∧ ∃ cc, (newArticleForTitle orig generalComments now freshId t).client_comments
              = some cc
            ∧ cc.action = "approved" ∧ cc.approvedTitles = [t]
            ∧ cc.selectedTitleIds = [t.id])
    ∧ (∀ a ∈ (submitTitleReview okStore freshId articles articleId selectedTitles
        false rejectReason generalComments now).2, a.id ≠ articleId) := by
  have hres : submitTitleReview okStore freshId articles articleId selectedTitles
      false rejectReason generalComments now
      = ({ success := true, error := none },
        (articles ++ (approvedTitlesOf selectedTitles).map
          (newArticleForTitle orig generalComments now freshId)).filter
            (fun a => a.id != articleId)) := by
    simp [submitTitleReview, okStore, hfind]
  have hkeep : ((approvedTitlesOf selectedTitles).map
      (newArticleForTitle orig generalComments now freshId)).filter
        (fun a => a.id != articleId)
      = (approvedTitlesOf selectedTitles).map
          (newArticleForTitle orig generalComments now freshId) := by
    apply List.filter_eq_self.mpr
    intro a ha
    rcases List.mem_map.mp ha with ⟨t, ht, rfl⟩
    simpa [newArticleForTitle, bne_iff_ne] using hfresh t ht
  refine ⟨by rw [hres], ?_, by simp [approvedTitlesOf], ?_, ?_⟩
  · rw [hres, List.filter_append, hkeep]
  · intro t ht
    exact ⟨rfl, rfl, rfl, _, rfl, rfl, rfl, rfl⟩
  · intro a ha
    rw [hres] at ha
    have hp := (List.mem_filter.mp ha).2
    simpa [bne_iff_ne] using hp

/-- Witness for C3: an article with three proposed titles, two approved;
the submission succeeds. -/
theorem submitTitleReview_fanout_witness :
    (submitTitleReview okStore (fun s => s ++ "#")
        [{ id := "o", campaign_id := "c", title := "T",
           status := ArticleStatus.AWAITING_REVIEW_TITLES,
           proposed_titles := ["A", "B", "C"], selected_title := none,
           client_comments := none, revision_history := [],
           revision_round := 1 }]
        "o"
        [{ id := "t1", text := "A", isSelected := true, clientNotes := "" },
         { id := "t2", text := "B", isSelected := false, clientNotes := "" },
         { id := "t3", text := "C", isSelected := true, clientNotes := "n3" }]
        false none (some "g") 7).1.success = true :=
  (submitTitleReview_fanout _ _ _ _ _ _ _
    { id := "o", campaign_id := "c", title := "T",
      status := ArticleStatus.AWAITING_REVIEW_TITLES,
      proposed_titles := ["A", "B", "C"], selected_title := none,
      client_comments := none, revision_history := [], revision_round := 1 }
    (by decide) (by decide) (by decide)).1

/-- C4: in the title-approval fan-out, a failed insert aborts the
operation before the delete step — the store is unchanged and a failure
is returned — while a failed delete after a successful insert is
non-fatal: the call still reports success, the new articles exist, and
the original is left in place. -/
theorem submitTitleReview_failure_handling
    (articles : List Article) (articleId : String)
    (selectedTitles : List TitleOption)
    (rejectReason generalComments : Option String) (now : Nat)
    (freshId : String → String) (u d : Bool) (orig : Article)
    (hfind : articles.find? (fun a => a.id == articleId) = some orig) :
    ((submitTitleReview
        { updateFails := u, fetchFails := false,
          insertFails := true, deleteFails := d }
        freshId articles articleId selectedTitles false rejectReason
        generalComments now).1.success = false
      ∧ (submitTitleReview
          { updateFails := u, fetchFails := false,
            insertFails := true, deleteFails := d }
          freshId articles articleId selectedTitles false rejectReason
          generalComments now).2 = articles)
    ∧ ((submitTitleReview
        { updateFails := u, fetchFails := false,
          insertFails := false, deleteFails := true }
        freshId articles articleId selectedTitles false rejectReason
        generalComments now).1.success = true
      ∧ (submitTitleReview
          { updateFails := u, fetchFails := false,
            insertFails := false, deleteFails := true }
          freshId articles articleId selectedTitles false rejectReason
          generalComments now).2
        = articles ++ (approvedTitlesOf selectedTitles).map
            (newArticleForTitle orig generalComments now freshId)
      ∧ orig ∈ (submitTitleReview
          { updateFails := u, fetchFails := false,
            insertFails := false, deleteFails := true }
          freshId articles articleId selectedTitles false rejectReason
          generalComments now).2) := by
  have h1 : submitTitleReview
      { updateFails := u, fetchFails := false,
        insertFails := true, deleteFails := d }
      freshId articles articleId selectedTitles false rejectReason
      generalComments now
      = ({ success := false, error := some "insert failed" }, articles) := by
    simp [submitTitleReview, hfind]
  have h2 : submitTitleReview
      { updateFails := u, fetchFails := false,
        insertFails := false, deleteFails := true }
      freshId articles articleId selectedTitles false rejectReason
      generalComments now
      = ({ success := true, error := none },
        articles ++ (approvedTitlesOf selectedTitles).map
          (newArticleForTitle orig generalComments now freshId)) := by
    simp [submitTitleReview, hfind]
  refine ⟨⟨by rw [h1], by rw [h1]⟩, by rw [h2], by rw [h2], ?_⟩
  rw [h2]
  exact List.mem_append_left _ (List.mem_of_find?_eq_some hfind)

/-- Witness for C4 at a concrete article and title list. -/
theorem submitTitleReview_failure_handling_witness :
    (submitTitleReview
        { updateFails := false, fetchFails := false,
          insertFails := true, deleteFails := false }
        (fun s => s ++ "#")
        [{ id := "o", campaign_id := "c", title := "T",
           status := ArticleStatus.AWAITING_REVIEW_TITLES,
           proposed_titles := ["A"], selected_title := none,
           client_comments := none, revision_history := [],
           revision_round := 1 }]
        "o"
        [{ id := "t1", text := "A", isSelected := true, clientNotes := "" }]
        false none none 7).1.success = false :=
  (submitTitleReview_failure_handling _ _ _ _ _ _ _ false false
    { id := "o", campaign_id := "c", title := "T",
      status := ArticleStatus.AWAITING_REVIEW_TITLES,
      proposed_titles := ["A"], selected_title := none,
      client_comments := none, revision_history := [], revision_round := 1 }
    (by decide)).1.1

/-- C5 counterexample: a structurally invalid title review is not
rejected before reaching the store.  A rejection without a reason
succeeds and mutates the article store, and an approval with an empty
set of selected titles succeeds, inserts nothing, and deletes the
original article. -/
theorem submitTitleReview_validation_counterexample :
    let art : Article :=
      { id := "o", campaign_id := "c", title := "T",
        status := ArticleStatus.AWAITING_REVIEW_TITLES,
        proposed_titles := ["A"], selected_title := none,
        client_comments := none, revision_history := [],
        revision_round := 1 }
    let rej := submitTitleReview okStore (fun s => s) [art] "o" [] true
      none none 3
    let appr := submitTitleReview okStore (fun s => s) [art] "o"
      [{ id := "t1", text := "A", isSelected := false, clientNotes := "" }]
      false none none 3
    rej.1.success = true ∧ rej.2 ≠ [art]
    ∧ appr.1.success = true ∧ appr.2 = [] := by
  decide

/-- C5 (amended): `submitTitleReview` performs no structural validation.
A rejection without a reason performs the store update and succeeds,
recording a payload with a null `rejectReason`; an approval in which no
title is selected succeeds, inserts no article, and deletes the
original. -/
theorem submitTitleReview_no_validation
    (articles : List Article) (articleId : String)
    (selectedTitles : List TitleOption) (generalComments : Option String)
    (now : Nat) (freshId : String → String) (orig : Article)
    (hfind : articles.find? (fun a => a.id == articleId) = some orig)
    (hnone : ∀ t ∈ selectedTitles, t.isSelected = false) :
    ((submitTitleReview okStore freshId articles articleId selectedTitles
        true none generalComments now).1.success = true
      ∧ ∃ a ∈ (submitTitleReview okStore freshId articles articleId
          selectedTitles true none generalComments now).2,
          a.id = articleId
          ∧ a.status = ArticleStatus.NEEDS_TITLES_REVISION
          ∧ ∃ cc, a.client_comments = some cc
              ∧ cc.action = "rejected" ∧ cc.rejectReason = none)
    ∧ ((submitTitleReview okStore freshId articles articleId selectedTitles
        false none generalComments now).1.success = true
      ∧ (submitTitleReview okStore freshId articles articleId selectedTitles
          false none generalComments now).2
        = articles.filter (fun a => a.id != articleId)) := by
  have horig : (orig.id == articleId) = true := by
    have := List.find?_some hfind
    simpa using this
  have happr : approvedTitlesOf selectedTitles = [] := by
    unfold approvedTitlesOf
    rw [List.filter_eq_nil_iff.mpr (fun t ht => by simp [hnone t ht])]
    rfl
  refine ⟨⟨?_, ?_⟩, ?_, ?_⟩
  · simp [submitTitleReview, okStore]
  · refine ⟨{ orig with
        client_comments := some
          { action := "rejected", rejectReason := none,
            generalComments := generalComments,
            titleNotes := titleNotesOf selectedTitles,
            timestamp := now, reviewer := "client" },
        status := ArticleStatus.NEEDS_TITLES_REVISION }, ?_, ?_, rfl, ?_⟩
    · show _ ∈ (submitTitleReview okStore freshId articles articleId
        selectedTitles true none generalComments now).2
      simp only [submitTitleReview, okStore, if_pos, if_neg,
        Bool.false_eq_true, ite_false, ite_true]
      refine List.mem_map.mpr ⟨orig, List.mem_of_find?_eq_some hfind, ?_⟩
      rw [if_pos horig]
    · show ({ orig with
        client_comments := some
          { action := "rejected", rejectReason := none,
            generalComments := generalComments,
            titleNotes := titleNotesOf selectedTitles,
            timestamp := now, reviewer := "client" },
        status := ArticleStatus.NEEDS_TITLES_REVISION } : Article).id = articleId
      simpa using horig
    · exact ⟨_, rfl, rfl, rfl⟩
  · simp [submitTitleReview, okStore, hfind]
  · simp [submitTitleReview, okStore, hfind, happr]

/-- Witness for C5 (amended) at a concrete store: the empty-approval call
deletes the original article and creates nothing. -/
theorem submitTitleReview_no_validation_witness :
    (submitTitleReview okStore (fun s => s)
        [{ id := "o", campaign_id := "c", title := "T",
           status := ArticleStatus.AWAITING_REVIEW_TITLES,
           proposed_titles := ["A"], selected_title := none,
           client_comments := none, revision_history := [],
           revision_round := 1 }]
        "o"
        [{ id := "t1", text := "A", isSelected := false, clientNotes := "" }]
        false none none 3).1.success = true :=
  (submitTitleReview_no_validation _ _ _ _ _ _
    { id := "o", campaign_id := "c", title := "T",
      status := ArticleStatus.AWAITING_REVIEW_TITLES,
      proposed_titles := ["A"], selected_title := none,
      client_comments := none, revision_history := [], revision_round := 1 }
    (by decide) (by decide)).2.1

/-- Witness for C8 at the deprecated status value. -/
theorem articleToClientTaskPhase_total_witness :
    articleToClientTaskPhase ArticleStatus.NEEDS_REVISION
      = (TaskType.CONTENT_REVIEW, TaskStatus.CHANGES_REQUESTED) :=
  articleToClientTaskPhase_total.2
